import Mathlib

/-!
Shallow embedding of the ProxyPool library (src/ProxyPool/__init__.py).

Conventions of the embedding:
* Wall-clock time (`time.time()`) is passed explicitly as a parameter `now : Int`.
* Python exceptions become a `PoolError` value; since Python exceptions do not
  roll back mutations already performed, every operation returns the resulting
  `PoolState` alongside the `Except` result.
* The registry `_ProxyDict` is an association list with unique keys; mutation of
  a `ProxyData` object (which in Python is shared between the dict and local
  references) is modelled by re-reading the entry from the registry before each
  mutation and writing the updated entry back.
* The replenishment callback (`replenish_proxies_func`) is a parameter
  `fn : Option (PoolState → PoolState)` of `get_proxy`; the threading gate
  around it (condition variable and lock) has no effect in a sequential run.
* `get_proxy` additionally returns a `Nat` counting how many times the
  replenishment callback was invoked during the call (ghost instrumentation;
  the source performs the calls as side effects).
-/

/-- Per-endpoint record, translated from `ProxyData.__init__`. -/
structure ProxyData where
  proxy_url : String
  timeout : Int
  banned : Bool
  given_out_counter : Int
  timed_out_counter : Int
  used_counter : Int
deriving DecidableEq, Repr

/-- `ProxyData.__init__(proxy_url)`: fresh record, all counters zero. -/
def ProxyData.fresh (url : String) : ProxyData :=
  { proxy_url := url, timeout := 0, banned := false
    given_out_counter := 0, timed_out_counter := 0, used_counter := 0 }

/-- `ProxyData.is_valid(ignore_timeout)`. -/
def ProxyData.is_valid (p : ProxyData) (now : Int) (ignore_timeout : Bool) : Bool :=
  !p.banned && (ignore_timeout || decide (p.timeout < now))

/-- `ProxyData.is_timeout()`. -/
def ProxyData.is_timeout (p : ProxyData) (now : Int) : Bool :=
  decide (p.timeout > now)

/-- `ProxyData.ban()`. -/
def ProxyData.setBanned (p : ProxyData) : ProxyData :=
  { p with banned := true }

/-- The `_ProxyDict` registry: identifier-keyed association list. -/
abbrev Registry := List (String × ProxyData)

/-- Registry lookup (`dict.__getitem__` success value; `none` models `KeyError`). -/
def dictGet : Registry → String → Option ProxyData
  | [], _ => none
  | kv :: rest, k => if kv.1 = k then some kv.2 else dictGet rest k

/-- Registry store (`dict.__setitem__`): overwrite if present, else add. -/
def dictSet (d : Registry) (k : String) (v : ProxyData) : Registry :=
  (k, v) :: d.filter (fun kv => kv.1 ≠ k)

/-- The exceptions raised by the source (`ProxyExceptions` plus Python builtins). -/
inductive PoolError where
  | UnknownProxy (id : String)
  | KeyError (id : String)
  | ValueError
  | IndexError
  | ProxiesTimeout (t : Int)
  | NoValidProxies
deriving DecidableEq, Repr

/-- `dict.pop(k)` (no default): built-in `dict.pop`, which does NOT go through
`_ProxyDict.__getitem__`, so a missing key raises the builtin `KeyError`. -/
def dictPop (d : Registry) (k : String) : Except PoolError Registry :=
  match dictGet d k with
  | some _ => .ok (d.filter (fun kv => kv.1 ≠ k))
  | none => .error (.KeyError k)

/-- State of a `ProxyPool` object: configuration, registry and queue. -/
structure PoolState where
  max_time_outs : Int
  max_uses : Int
  time_out_on_use : Int
  proxy_dict : Registry
  proxy_queue : List String
deriving DecidableEq, Repr

/-- The scan-and-insert loop of `_ProxyQueue.put`: walk the queue, insert the
url before the first entry whose registry timeout is ≥ the new timeout `t`,
append at the end otherwise.  Looking an entry up in the registry goes through
`ProxyPool.__getitem__`, hence `UnknownProxy` on a missing key. -/
def queuePutLoop (d : Registry) (t : Int) (url : String) : List String → Except PoolError (List String)
  | [] => .ok [url]
  | a :: rest =>
    match dictGet d a with
    | none => .error (.UnknownProxy a)
    | some pa =>
      if t ≤ pa.timeout then .ok (url :: a :: rest)
      else
        match queuePutLoop d t url rest with
        | .ok l => .ok (a :: l)
        | .error e => .error e

/-- `_ProxyQueue.put(proxy)`: first remove the url if present (the
`ValueError` from `deque.remove` is swallowed, so this is `List.erase`),
then run the insertion scan. -/
def queuePut (d : Registry) (p : ProxyData) (q : List String) : Except PoolError (List String) :=
  queuePutLoop d p.timeout p.proxy_url (q.erase p.proxy_url)

/-- `_ProxyQueue.remove(item)`: plain `deque.remove`, which raises
`ValueError` when the item is absent (no try/except here, unlike `put`). -/
def queueRemove (q : List String) (id : String) : Except PoolError (List String) :=
  if id ∈ q then .ok (q.erase id) else .error .ValueError

/-- `ProxyPool.proxy_valid_to_give(proxy, ignore_timeout)`. -/
def proxy_valid_to_give (s : PoolState) (p : ProxyData) (now : Int) (ignore_timeout : Bool) : Bool :=
  (decide (s.max_time_outs ≤ 0) || decide (p.timed_out_counter < s.max_time_outs))
  && (decide (s.max_uses ≤ 0) || decide (p.used_counter < s.max_uses))
  && p.is_valid now ignore_timeout

/-- `ProxyPool.return_proxy(proxy)` called with an identifier: look the record
up (`UnknownProxy` if absent), decrement `given_out_counter`, and if the
updated record is valid-to-give with `ignore_timeout=True`, `put` it back into
the queue. -/
def return_proxy (s : PoolState) (id : String) (now : Int) : Except PoolError Unit × PoolState :=
  match dictGet s.proxy_dict id with
  | none => (.error (.UnknownProxy id), s)
  | some p =>
    let p' := { p with given_out_counter := p.given_out_counter - 1 }
    let d' := dictSet s.proxy_dict id p'
    if proxy_valid_to_give s p' now true then
      match queuePut d' p' s.proxy_queue with
      | .ok q' => (.ok (), { s with proxy_dict := d', proxy_queue := q' })
      | .error e => (.error e, { s with proxy_dict := d', proxy_queue := s.proxy_queue.erase p'.proxy_url })
    else (.ok (), { s with proxy_dict := d' })

/-- The body of `ProxyPool.get_proxy` up to the `except IndexError` handler:
pop the queue front (`IndexError` when empty), re-queue and raise
`ProxiesTimeout` when the popped endpoint is still cooling down, otherwise
release `prev` (when supplied), increment the popped endpoint's
`given_out_counter` (re-read from the registry: in the source the counter
lives on the shared `ProxyData` object) and return its identifier. -/
def get_proxy_once (s : PoolState) (prev : Option String) (now : Int) : Except PoolError String × PoolState :=
  match s.proxy_queue with
  | [] => (.error .IndexError, s)
  | id :: rest =>
    match dictGet s.proxy_dict id with
    | none => (.error (.UnknownProxy id), { s with proxy_queue := rest })
    | some p =>
      if p.is_timeout now then
        match queuePut s.proxy_dict p rest with
        | .ok q' => (.error (.ProxiesTimeout p.timeout), { s with proxy_queue := q' })
        | .error e => (.error e, { s with proxy_queue := rest.erase p.proxy_url })
      else
        match (match prev with
               | some pid => return_proxy { s with proxy_queue := rest } pid now
               | none => (.ok (), { s with proxy_queue := rest })) with
        | (.error e, s1) => (.error e, s1)
        | (.ok _, s1) =>
          match dictGet s1.proxy_dict id with
          | none => (.error (.UnknownProxy id), s1)
          | some p1 =>
            (.ok id,
             { s1 with proxy_dict :=
                 dictSet s1.proxy_dict id { p1 with given_out_counter := p1.given_out_counter + 1 } })

/-- Discriminates the one exception `get_proxy` catches (`except IndexError`). -/
def isIndexError : Except PoolError String → Bool
  | .error .IndexError => true
  | _ => false

/-- `ProxyPool.get_proxy(prev_proxy, _replenish=True)` with the recursive
`_replenish=False` retry unfolded: only an `IndexError` from the pop is
caught; when a callback is configured it runs exactly once and the body is
retried once, the retry mapping a second `IndexError` to `NoValidProxies`.
The final `Nat` counts callback invocations. -/
def get_proxy (fn : Option (PoolState → PoolState)) (s : PoolState) (prev : Option String) (now : Int) :
    Except PoolError String × PoolState × Nat :=
  if isIndexError (get_proxy_once s prev now).1 then
    match fn with
    | some f =>
      if isIndexError (get_proxy_once (f (get_proxy_once s prev now).2) prev now).1 then
        (.error .NoValidProxies, (get_proxy_once (f (get_proxy_once s prev now).2) prev now).2, 1)
      else
        ((get_proxy_once (f (get_proxy_once s prev now).2) prev now).1,
         (get_proxy_once (f (get_proxy_once s prev now).2) prev now).2, 1)
    | none => (.error .NoValidProxies, (get_proxy_once s prev now).2, 0)
  else ((get_proxy_once s prev now).1, (get_proxy_once s prev now).2, 0)

/-- `ProxyPool.add_proxy(proxy)`: store a fresh record under the identifier
(overwriting any existing one) and `put` it into the queue. -/
def add_proxy (s : PoolState) (id : String) : Except PoolError Unit × PoolState :=
  let d' := dictSet s.proxy_dict id (ProxyData.fresh id)
  match queuePut d' (ProxyData.fresh id) s.proxy_queue with
  | .ok q' => (.ok (), { s with proxy_dict := d', proxy_queue := q' })
  | .error e => (.error e, { s with proxy_dict := d', proxy_queue := s.proxy_queue.erase id })

/-- `ProxyPool.remove_proxy(proxy)`: `dict.pop` (builtin `KeyError` when the
identifier is unknown) followed by `_ProxyQueue.remove` (`ValueError` when the
identifier is not queued; the registry entry is already gone by then). -/
def remove_proxy (s : PoolState) (id : String) : Except PoolError Unit × PoolState :=
  match dictPop s.proxy_dict id with
  | .error e => (.error e, s)
  | .ok d' =>
    match queueRemove s.proxy_queue id with
    | .ok q' => (.ok (), { s with proxy_dict := d', proxy_queue := q' })
    | .error e => (.error e, { s with proxy_dict := d' })

/-- `ProxyPool.ban_proxy(proxy)`. -/
def ban_proxy (s : PoolState) (id : String) : Except PoolError Unit × PoolState :=
  match dictGet s.proxy_dict id with
  | none => (.error (.UnknownProxy id), s)
  | some p => (.ok (), { s with proxy_dict := dictSet s.proxy_dict id p.setBanned })

/-- `ProxyPool.__init__(proxy_list, ...)`: registry built by dict
comprehension (later duplicates overwrite), queue seeded with the list. -/
def mkPool (proxy_list : List String) (max_time_outs max_uses time_out_on_use : Int) : PoolState :=
  { max_time_outs := max_time_outs, max_uses := max_uses, time_out_on_use := time_out_on_use
    proxy_dict := proxy_list.foldl (fun d a => dictSet d a (ProxyData.fresh a)) []
    proxy_queue := proxy_list }

/-- `ProxyPool.Proxy(proxy)` followed by `Proxy.__init__`: with an explicit
identifier, add it when unknown and assign it directly (note: no
`given_out_counter` increment on this path); with `None`, call `get_proxy`. -/
def pool_Proxy (fn : Option (PoolState → PoolState)) (s : PoolState) (proxy : Option String) (now : Int) :
    Except PoolError String × PoolState × Nat :=
  match proxy with
  | some pid =>
    if (dictGet s.proxy_dict pid).isSome then (.ok pid, s, 0)
    else
      match add_proxy s pid with
      | (.ok _, s1) => (.ok pid, s1, 0)
      | (.error e, s1) => (.error e, s1, 0)
  | none => get_proxy fn s none now

/-- `Proxy.__del__`: when an identifier is still assigned, return it. -/
def proxy_del (s : PoolState) (assigned : Option String) (now : Int) : Except PoolError Unit × PoolState :=
  match assigned with
  | some pid => return_proxy s pid now
  | none => (.ok (), s)

/-- Well-formedness of the queue used by the conditional acquire claims: every
queued identifier refers to a registry entry that is valid-to-give with the
cooldown ignored. -/
def queueInvB (s : PoolState) : Bool :=
  s.proxy_queue.all fun id =>
    match dictGet s.proxy_dict id with
    | some p => proxy_valid_to_give s p 0 true
    | none => false

/-- Predicate describing the entries the `put` scan skips: registry timeout
strictly below the inserted timeout `t`. -/
def beforeNew (d : Registry) (t : Int) (a : String) : Bool :=
  match dictGet d a with
  | some pa => decide (pa.timeout < t)
  | none => false

/-! ## Registry lemmas -/

lemma dictGet_filter_ne (d : Registry) (k k' : String) (h : k ≠ k') :
    dictGet (d.filter (fun kv => kv.1 ≠ k')) k = dictGet d k := by
  induction d with
  | nil => rfl
  | cons kv rest ih =>
    simp only [ne_eq, decide_not] at ih
    by_cases hk : kv.1 = k'
    · have hkk : kv.1 ≠ k := fun hkk => h (hkk ▸ hk)
      rw [List.filter_cons_of_neg (by simp [hk])]
      simp [dictGet, hkk, ih]
    · rw [List.filter_cons_of_pos (by simp [hk])]
      by_cases hkk : kv.1 = k
      · simp [dictGet, hkk]
      · simp [dictGet, hkk, ih]

lemma dictGet_dictSet_self (d : Registry) (k : String) (v : ProxyData) :
    dictGet (dictSet d k v) k = some v := by
  simp [dictGet, dictSet]

lemma dictGet_dictSet_ne (d : Registry) (k k' : String) (v : ProxyData) (h : k ≠ k') :
    dictGet (dictSet d k' v) k = dictGet d k := by
  simp only [dictSet, dictGet]
  rw [if_neg (fun hh => h hh.symm)]
  exact dictGet_filter_ne d k k' h

/-! ## Queue insertion lemmas -/

lemma queuePutLoop_eq (d : Registry) (t : Int) (url : String) :
    ∀ l : List String, (∀ a ∈ l, (dictGet d a).isSome) →
      queuePutLoop d t url l =
        .ok (l.takeWhile (beforeNew d t) ++ url :: l.dropWhile (beforeNew d t)) := by
  intro l
  induction l with
  | nil => intro _; rfl
  | cons a rest ih =>
    intro h
    have ha : (dictGet d a).isSome := h a (List.mem_cons_self a rest)
    obtain ⟨pa, hpa⟩ := Option.isSome_iff_exists.mp ha
    have hb : beforeNew d t a = decide (pa.timeout < t) := by
      simp [beforeNew, hpa]
    by_cases hle : t ≤ pa.timeout
    · have hbf : beforeNew d t a = false := by
        simp [hb, not_lt.mpr hle]
      simp [queuePutLoop, hpa, hle, List.takeWhile_cons, List.dropWhile_cons, hbf]
    · have hbt : beforeNew d t a = true := by
        simp [hb, lt_of_not_le hle]
      have ihr := ih (fun x hx => h x (List.mem_cons_of_mem a hx))
      simp [queuePutLoop, hpa, hle, List.takeWhile_cons, List.dropWhile_cons, hbt, ihr]

lemma queuePut_eq (d : Registry) (p : ProxyData) (q : List String)
    (h : ∀ a ∈ q.erase p.proxy_url, (dictGet d a).isSome) :
    queuePut d p q =
      .ok ((q.erase p.proxy_url).takeWhile (beforeNew d p.timeout)
           ++ p.proxy_url :: (q.erase p.proxy_url).dropWhile (beforeNew d p.timeout)) :=
  queuePutLoop_eq d p.timeout p.proxy_url (q.erase p.proxy_url) h

lemma mem_insert_middle (l : List String) (pr : String → Bool) (url x : String) :
    x ∈ (l.takeWhile pr ++ url :: l.dropWhile pr) ↔ x = url ∨ x ∈ l := by
  constructor
  · intro hx
    rcases List.mem_append.mp hx with h1 | h2
    · exact Or.inr ((List.takeWhile_prefix pr).sublist.subset h1)
    · rcases List.mem_cons.mp h2 with h3 | h4
      · exact Or.inl h3
      · exact Or.inr ((List.dropWhile_suffix pr).sublist.subset h4)
  · intro hx
    rcases hx with h1 | h2
    · exact List.mem_append.mpr (Or.inr (h1 ▸ List.mem_cons_self _ _))
    · have hx2 : x ∈ l.takeWhile pr ++ l.dropWhile pr := by
        rw [List.takeWhile_append_dropWhile]; exact h2
      rcases List.mem_append.mp hx2 with h3 | h4
      · exact List.mem_append.mpr (Or.inl h3)
      · exact List.mem_append.mpr (Or.inr (List.mem_cons_of_mem _ h4))

/-! ## Error-shape and preservation lemmas -/

lemma queuePutLoop_error_shape (d : Registry) (t : Int) (url : String) :
    ∀ l e, queuePutLoop d t url l = .error e → ∃ a, e = PoolError.UnknownProxy a := by
  intro l
  induction l with
  | nil => intro e he; exact absurd he (by simp [queuePutLoop])
  | cons a rest ih =>
    intro e he
    unfold queuePutLoop at he
    split at he
    · cases he; exact ⟨a, rfl⟩
    · split at he
      · exact Except.noConfusion he
      · split at he
        · exact Except.noConfusion he
        · rename_i hrec
          cases he
          exact ih _ hrec

lemma return_proxy_error_shape (s : PoolState) (id : String) (now : Int) (e : PoolError)
    (h : (return_proxy s id now).1 = .error e) : ∃ a, e = PoolError.UnknownProxy a := by
  unfold return_proxy at h
  split at h
  · cases h; exact ⟨id, rfl⟩
  · dsimp only at h
    split at h
    · split at h
      · exact Except.noConfusion h
      · rename_i hput
        cases h
        exact queuePutLoop_error_shape _ _ _ _ _ hput
    · exact Except.noConfusion h

/-- `sameHealth p q`: all fields except `given_out_counter` agree. -/
def sameHealth (p q : ProxyData) : Prop :=
  p.proxy_url = q.proxy_url ∧ p.timeout = q.timeout ∧ p.banned = q.banned ∧
  p.timed_out_counter = q.timed_out_counter ∧ p.used_counter = q.used_counter

lemma sameHealth_rfl (p : ProxyData) : sameHealth p p :=
  ⟨rfl, rfl, rfl, rfl, rfl⟩

lemma return_proxy_health (s : PoolState) (pid : String) (now : Int) (k : String) (p0 : ProxyData)
    (hk : dictGet s.proxy_dict k = some p0) :
    ∃ p1, dictGet (return_proxy s pid now).2.proxy_dict k = some p1 ∧ sameHealth p1 p0 := by
  unfold return_proxy
  cases hd : dictGet s.proxy_dict pid with
  | none => exact ⟨p0, hk, sameHealth_rfl p0⟩
  | some p =>
    dsimp only
    have key : ∀ v : ProxyData, sameHealth v p →
        ∃ p1, dictGet (dictSet s.proxy_dict pid v) k = some p1 ∧ sameHealth p1 p0 := by
      intro v hv
      by_cases hkp : k = pid
      · subst hkp
        rw [hd] at hk
        injection hk with hk2
        subst hk2
        exact ⟨v, dictGet_dictSet_self _ _ _, hv⟩
      · rw [dictGet_dictSet_ne _ _ _ _ hkp]
        exact ⟨p0, hk, sameHealth_rfl p0⟩
    split
    · split
      · exact key _ ⟨rfl, rfl, rfl, rfl, rfl⟩
      · exact key _ ⟨rfl, rfl, rfl, rfl, rfl⟩
    · exact key _ ⟨rfl, rfl, rfl, rfl, rfl⟩

lemma return_proxy_config (s : PoolState) (id : String) (now : Int) :
    (return_proxy s id now).2.max_time_outs = s.max_time_outs ∧
    (return_proxy s id now).2.max_uses = s.max_uses := by
  unfold return_proxy
  split
  · exact ⟨rfl, rfl⟩
  · dsimp only
    split
    · split
      · exact ⟨rfl, rfl⟩
      · exact ⟨rfl, rfl⟩
    · exact ⟨rfl, rfl⟩

lemma get_proxy_once_empty (s : PoolState) (prev : Option String) (now : Int)
    (h : s.proxy_queue = []) : get_proxy_once s prev now = (.error .IndexError, s) := by
  unfold get_proxy_once
  rw [h]

lemma valid_to_give_ignore (s : PoolState) (p : ProxyData) (now : Int)
    (hv : proxy_valid_to_give s p now true = true) :
    p.banned = false ∧ (s.max_uses ≤ 0 ∨ p.used_counter < s.max_uses) ∧
      (s.max_time_outs ≤ 0 ∨ p.timed_out_counter < s.max_time_outs) := by
  simp only [proxy_valid_to_give, ProxyData.is_valid, Bool.true_or, Bool.and_true,
    Bool.and_eq_true, Bool.or_eq_true, decide_eq_true_eq, Bool.not_eq_true'] at hv
  tauto

lemma get_proxy_once_not_index (s : PoolState) (prev : Option String) (now : Int)
    (h : s.proxy_queue ≠ []) : isIndexError (get_proxy_once s prev now).1 = false := by
  unfold get_proxy_once
  split
  · rename_i heq
    exact absurd heq h
  · try dsimp only
    split
    · rfl
    · split
      · split
        · rfl
        · rename_i hput
          obtain ⟨a, ha⟩ := queuePutLoop_error_shape _ _ _ _ _ hput
          subst ha
          rfl
      · split
        · rename_i heq
          rcases hprev : prev with _ | pid
          · rw [hprev] at heq
            exact absurd heq (by simp)
          · rw [hprev] at heq
            have h1 : (return_proxy _ pid now).1 = .error _ := congrArg Prod.fst heq
            obtain ⟨a, ha⟩ := return_proxy_error_shape _ _ _ _ h1
            subst ha
            rfl
        · split
          · rfl
          · rfl

lemma get_proxy_once_config (s : PoolState) (prev : Option String) (now : Int) :
    (get_proxy_once s prev now).2.max_time_outs = s.max_time_outs ∧
    (get_proxy_once s prev now).2.max_uses = s.max_uses := by
  unfold get_proxy_once
  split
  · exact ⟨rfl, rfl⟩
  · try dsimp only
    split
    · exact ⟨rfl, rfl⟩
    · split
      · split
        · exact ⟨rfl, rfl⟩
        · exact ⟨rfl, rfl⟩
      · split
        · rename_i heq
          rcases hprev : prev with _ | pid
          · rw [hprev] at heq
            simp at heq
          · rw [hprev] at heq
            have h2 := congrArg Prod.snd heq
            dsimp at h2
            rw [← h2]
            exact return_proxy_config _ pid now
        · rename_i u s1 heq
          have hs1 : s1.max_time_outs = s.max_time_outs ∧ s1.max_uses = s.max_uses := by
            rcases hprev : prev with _ | pid
            · rw [hprev] at heq
              have h2 := congrArg Prod.snd heq
              dsimp at h2
              rw [← h2]
              exact ⟨rfl, rfl⟩
            · rw [hprev] at heq
              have h2 := congrArg Prod.snd heq
              dsimp at h2
              rw [← h2]
              exact return_proxy_config _ pid now
          split
          · exact hs1
          · exact hs1

lemma get_proxy_once_ok (s : PoolState) (prev : Option String) (now : Int) (id : String) (s' : PoolState)
    (hinv : queueInvB s = true)
    (hok : get_proxy_once s prev now = (.ok id, s')) :
    ∃ p, dictGet s'.proxy_dict id = some p ∧ p.banned = false ∧
      (s.max_uses ≤ 0 ∨ p.used_counter < s.max_uses) ∧
      (s.max_time_outs ≤ 0 ∨ p.timed_out_counter < s.max_time_outs) := by
  unfold get_proxy_once at hok
  split at hok
  · exact absurd (congrArg Prod.fst hok) (by simp)
  · rename_i id0 rest hq
    unfold queueInvB at hinv
    have hmem : id0 ∈ s.proxy_queue := by rw [hq]; exact List.mem_cons_self _ _
    have hall := List.all_eq_true.mp hinv id0 hmem
    split at hok
    · rename_i heq2
      rw [heq2] at hall
      simp at hall
    · rename_i p heq2
      rw [heq2] at hall
      obtain ⟨hban, huse, htim⟩ := valid_to_give_ignore s p 0 hall
      split at hok
      · split at hok
        · exact absurd (congrArg Prod.fst hok) (by simp)
        · exact absurd (congrArg Prod.fst hok) (by simp)
      · split at hok
        · exact absurd (congrArg Prod.fst hok) (by simp)
        · rename_i u s1 heq3
          split at hok
          · exact absurd (congrArg Prod.fst hok) (by simp)
          · rename_i p1 heq4
            injection hok with h1 h2
            injection h1 with h1
            subst h1
            subst h2
            have hsame : sameHealth p1 p := by
              rcases hprev : prev with _ | pid
              · rw [hprev] at heq3
                have hs1 := congrArg Prod.snd heq3
                dsimp at hs1
                rw [← hs1] at heq4
                dsimp at heq4
                rw [heq2] at heq4
                injection heq4 with hh
                subst hh
                exact sameHealth_rfl _
              · rw [hprev] at heq3
                obtain ⟨pp, hpp, hsame2⟩ :=
                  return_proxy_health { s with proxy_queue := rest } pid now id0 p heq2
                have hs1 := congrArg Prod.snd heq3
                dsimp at hs1
                rw [hs1] at hpp
                rw [heq4] at hpp
                injection hpp with hh
                subst hh
                exact hsame2
            obtain ⟨hs_url, hs_to, hs_ban, hs_tc, hs_uc⟩ := hsame
            refine ⟨_, dictGet_dictSet_self _ _ _, ?_, ?_, ?_⟩
            · exact hs_ban.trans hban
            · rcases huse with h | h
              · exact Or.inl h
              · refine Or.inr ?_
                show p1.used_counter < s.max_uses
                rw [hs_uc]
                exact h
            · rcases htim with h | h
              · exact Or.inl h
              · refine Or.inr ?_
                show p1.timed_out_counter < s.max_time_outs
                rw [hs_tc]
                exact h

lemma if_isIndexError_pos {α : Type} (r : Except PoolError String) (h : r = .error .IndexError)
    (a b : α) : (if isIndexError r then a else b) = a := by
  subst h; rfl

lemma if_isIndexError_neg {α : Type} (r : Except PoolError String) (h : isIndexError r = false)
    (a b : α) : (if isIndexError r then a else b) = b := by
  rw [h]; rfl

lemma isIndexError_true_iff (r : Except PoolError String) :
    isIndexError r = true ↔ r = .error .IndexError := by
  cases r with
  | ok v => simp [isIndexError]
  | error e => cases e <;> simp [isIndexError]

/-! ## Claim C1 -/

/-- C1 (amended): `get_proxy` never returns a banned endpoint, nor one at or
over the use/timeout ceilings, PROVIDED every identifier in the availability
queue (of the starting state, and of the replenished state when the callback
runs) refers to a registry entry that is valid-to-give with cooldown ignored.
The unconditional claim is false: see the counterexample theorem. -/
theorem c1_acquire_only_eligible (fn : Option (PoolState → PoolState)) (s : PoolState)
    (prev : Option String) (now : Int)
    (h1 : queueInvB s = true) (h2 : ∀ f, fn = some f → queueInvB (f s) = true)
    (id : String) (s' : PoolState) (n : Nat)
    (hrun : get_proxy fn s prev now = (.ok id, s', n)) :
    ∃ p, dictGet s'.proxy_dict id = some p ∧ p.banned = false ∧
      (s'.max_uses ≤ 0 ∨ p.used_counter < s'.max_uses) ∧
      (s'.max_time_outs ≤ 0 ∨ p.timed_out_counter < s'.max_time_outs) := by
  unfold get_proxy at hrun
  by_cases hq : s.proxy_queue = []
  · rw [get_proxy_once_empty s prev now hq] at hrun
    dsimp only at hrun
    rw [if_isIndexError_pos _ rfl] at hrun
    rcases hfn : fn with _ | f
    · rw [hfn] at hrun
      simp at hrun
    · rw [hfn] at hrun
      dsimp only at hrun
      rcases hr2 : get_proxy_once (f s) prev now with ⟨r2a, r2s⟩
      rw [hr2] at hrun
      dsimp only at hrun
      cases hidx : isIndexError r2a with
      | true =>
        have hre := (isIndexError_true_iff r2a).mp hidx
        subst hre
        rw [if_isIndexError_pos _ rfl] at hrun
        simp at hrun
      | false =>
        rw [if_isIndexError_neg _ hidx] at hrun
        injection hrun with ha hbc
        injection hbc with hb hc
        subst ha
        have hok : get_proxy_once (f s) prev now = (.ok id, s') := by
          rw [hr2, hb]
        obtain ⟨p, hp, hban, hu, ht⟩ := get_proxy_once_ok (f s) prev now id s' (h2 f hfn) hok
        have hc2 := get_proxy_once_config (f s) prev now
        rw [hok] at hc2
        dsimp at hc2
        rw [hc2.1, hc2.2]
        exact ⟨p, hp, hban, hu, ht⟩
  · have hni := get_proxy_once_not_index s prev now hq
    rw [if_isIndexError_neg _ hni] at hrun
    rcases hr1 : get_proxy_once s prev now with ⟨r1a, r1s⟩
    rw [hr1] at hrun
    dsimp only at hrun
    injection hrun with ha hbc
    injection hbc with hb hc
    subst ha
    have hok : get_proxy_once s prev now = (.ok id, s') := by
      rw [hr1, hb]
    obtain ⟨p, hp, hban, hu, ht⟩ := get_proxy_once_ok s prev now id s' h1 hok
    have hc2 := get_proxy_once_config s prev now
    rw [hok] at hc2
    dsimp at hc2
    rw [hc2.1, hc2.2]
    exact ⟨p, hp, hban, hu, ht⟩

/-- C1 counterexample: banning a queued endpoint does not dequeue it, and
`get_proxy` checks only the cooldown, so the very next acquire returns the
banned endpoint. -/
theorem c1_counterexample :
    (get_proxy none (ban_proxy (mkPool ["a"] 0 0 0) "a").2 none 0).1 = .ok "a" ∧
    ((dictGet (get_proxy none (ban_proxy (mkPool ["a"] 0 0 0) "a").2 none 0).2.1.proxy_dict "a").map
      ProxyData.banned) = some true :=
  ⟨rfl, rfl⟩

/-- Concrete post-acquire state used to witness C1. -/
def c1WitState : PoolState :=
  { max_time_outs := 0, max_uses := 0, time_out_on_use := 0
    proxy_dict := [("a", ⟨"a", 0, false, 1, 0, 0⟩)], proxy_queue := [] }

/-- C1 witness: the amended theorem applied to a one-endpoint healthy pool. -/
theorem c1_witness :
    queueInvB (mkPool ["a"] 0 0 0) = true ∧
    (∃ p, dictGet c1WitState.proxy_dict "a" = some p ∧ p.banned = false ∧
      (c1WitState.max_uses ≤ 0 ∨ p.used_counter < c1WitState.max_uses) ∧
      (c1WitState.max_time_outs ≤ 0 ∨ p.timed_out_counter < c1WitState.max_time_outs)) :=
  ⟨by decide, c1_acquire_only_eligible none (mkPool ["a"] 0 0 0) none 0 (by decide)
      (fun f h => nomatch h) "a" c1WitState 0 rfl⟩

/-! ## Claim C3 -/

/-- C3 counterexample: a handle constructed around a pre-specified identifier
(`ProxyPool.Proxy("a")` on a pool that knows `"a"`) performs no
`given_out_counter` increment, yet its scope-end `__del__` still releases,
driving the counter to −1 < 0. -/
theorem c3_counterexample :
    pool_Proxy none (mkPool ["a"] 0 0 0) (some "a") 0 = (.ok "a", mkPool ["a"] 0 0 0, 0) ∧
    ((dictGet (proxy_del (mkPool ["a"] 0 0 0) (some "a") 0).2.proxy_dict "a").map
      ProxyData.given_out_counter) = some (-1) :=
  ⟨rfl, rfl⟩

/-- C3 (amended): `return_proxy` decrements `given_out_counter` by exactly one
with no floor at zero, so the counter is non-negative after a release iff it
was positive before; a release without a matching acquire (as in the
counterexample's handle lifecycle) drives it negative. -/
theorem c3_outstanding_decrement (s : PoolState) (id : String) (now : Int) (p : ProxyData)
    (hp : dictGet s.proxy_dict id = some p) :
    ∃ p', dictGet (return_proxy s id now).2.proxy_dict id = some p' ∧
      p'.given_out_counter = p.given_out_counter - 1 ∧
      (0 ≤ p'.given_out_counter ↔ 1 ≤ p.given_out_counter) := by
  unfold return_proxy
  rw [hp]
  dsimp only
  split
  · split
    · exact ⟨_, dictGet_dictSet_self _ _ _, rfl, by show 0 ≤ p.given_out_counter - 1 ↔ 1 ≤ p.given_out_counter; omega⟩
    · exact ⟨_, dictGet_dictSet_self _ _ _, rfl, by show 0 ≤ p.given_out_counter - 1 ↔ 1 ≤ p.given_out_counter; omega⟩
  · exact ⟨_, dictGet_dictSet_self _ _ _, rfl, by show 0 ≤ p.given_out_counter - 1 ↔ 1 ≤ p.given_out_counter; omega⟩

/-- Pool with one checked-out endpoint, used to witness C3. -/
def c3WitPool : PoolState :=
  { max_time_outs := 0, max_uses := 0, time_out_on_use := 0
    proxy_dict := [("a", ⟨"a", 0, false, 1, 0, 0⟩)], proxy_queue := [] }

/-- C3 witness: the amended theorem applied to a checked-out endpoint. -/
theorem c3_witness :
    dictGet c3WitPool.proxy_dict "a" = some ⟨"a", 0, false, 1, 0, 0⟩ ∧
    (∃ p', dictGet (return_proxy c3WitPool "a" 0).2.proxy_dict "a" = some p' ∧
      p'.given_out_counter = (⟨"a", 0, false, 1, 0, 0⟩ : ProxyData).given_out_counter - 1 ∧
      (0 ≤ p'.given_out_counter ↔ 1 ≤ (⟨"a", 0, false, 1, 0, 0⟩ : ProxyData).given_out_counter)) :=
  ⟨rfl, c3_outstanding_decrement c3WitPool "a" 0 _ rfl⟩

/-! ## Claim C4 -/

lemma dropWhile_head_false {α : Type} (pr : α → Bool) :
    ∀ (l : List α) (b : α) (l2 : List α), List.dropWhile pr l = b :: l2 → pr b = false := by
  intro l
  induction l with
  | nil => intro b l2 hcon; exact absurd hcon (by simp)
  | cons a rest ih =>
    intro b l2 hcon
    rw [List.dropWhile_cons] at hcon
    by_cases ha : pr a = true
    · rw [if_pos ha] at hcon
      exact ih b l2 hcon
    · rw [if_neg ha] at hcon
      injection hcon with h1 _
      subst h1
      simpa using ha

/-- C4: `put` first removes the identifier (one occurrence, no error when
absent), then inserts it before the first remaining entry whose current
registry `timeout` is ≥ the inserted record's `timeout` (appending when no
entry qualifies); when the queue held no duplicates before, it holds none
after, so the identifier occurs at most once. -/
theorem c4_queue_put_sorted_insert (d : Registry) (p : ProxyData) (q : List String)
    (h : ∀ a ∈ q.erase p.proxy_url, (dictGet d a).isSome) :
    queuePut d p q =
      .ok ((q.erase p.proxy_url).takeWhile (beforeNew d p.timeout)
           ++ p.proxy_url :: (q.erase p.proxy_url).dropWhile (beforeNew d p.timeout)) ∧
    (∀ a ∈ (q.erase p.proxy_url).takeWhile (beforeNew d p.timeout),
       ∃ pa, dictGet d a = some pa ∧ pa.timeout < p.timeout) ∧
    (∀ b l2, (q.erase p.proxy_url).dropWhile (beforeNew d p.timeout) = b :: l2 →
       ∃ pb, dictGet d b = some pb ∧ p.timeout ≤ pb.timeout) ∧
    (q.Nodup →
      ((q.erase p.proxy_url).takeWhile (beforeNew d p.timeout)
        ++ p.proxy_url :: (q.erase p.proxy_url).dropWhile (beforeNew d p.timeout)).Nodup) := by
  refine ⟨queuePut_eq d p q h, ?_, ?_, ?_⟩
  · intro a ha
    have hb := List.mem_takeWhile_imp ha
    unfold beforeNew at hb
    cases hd : dictGet d a with
    | none => rw [hd] at hb; simp at hb
    | some pa =>
      rw [hd] at hb
      simp at hb
      exact ⟨pa, rfl, hb⟩
  · intro b l2 hbl
    have hb := dropWhile_head_false (beforeNew d p.timeout) _ b l2 hbl
    unfold beforeNew at hb
    have hmem : b ∈ q.erase p.proxy_url := by
      have hmem2 : b ∈ (q.erase p.proxy_url).dropWhile (beforeNew d p.timeout) := by
        rw [hbl]; exact List.mem_cons_self _ _
      exact (List.dropWhile_suffix _).sublist.subset hmem2
    cases hd : dictGet d b with
    | none => exact absurd (hd ▸ h b hmem) (by simp)
    | some pb =>
      rw [hd] at hb
      simp at hb
      exact ⟨pb, rfl, by omega⟩
  · intro hnd
    have hl : (q.erase p.proxy_url).Nodup := hnd.erase _
    have hnm : p.proxy_url ∉ q.erase p.proxy_url := hnd.not_mem_erase
    rw [List.nodup_middle, List.takeWhile_append_dropWhile, List.nodup_cons]
    exact ⟨hnm, hl⟩

/-- Registry used to witness C4. -/
def c4WitDict : Registry := [("a", ProxyData.fresh "a")]

/-- C4 witness: inserting a fresh endpoint `"b"` (timeout 0) into the queue
`["a"]` puts it in front of `"a"` (whose timeout 0 is ≥ 0). -/
theorem c4_witness :
    queuePut c4WitDict (ProxyData.fresh "b") ["a"] = .ok ["b", "a"] :=
  (c4_queue_put_sorted_insert c4WitDict (ProxyData.fresh "b") ["a"] (by decide)).1

/-! ## Claim C5 -/

/-- C5: acquiring from an empty queue fails with `NoValidProxies` at once when
no callback is configured; with a callback configured the callback runs
exactly once and the pop is retried exactly once, a still-empty queue again
giving `NoValidProxies`; in every run the callback runs at most once. -/
theorem c5_empty_queue_replenish (fn : Option (PoolState → PoolState)) (s : PoolState)
    (prev : Option String) (now : Int) :
    (get_proxy fn s prev now).2.2 ≤ 1 ∧
    (s.proxy_queue = [] → fn = none →
       get_proxy fn s prev now = (.error .NoValidProxies, s, 0)) ∧
    (∀ f, fn = some f → s.proxy_queue = [] →
       (get_proxy fn s prev now).2.2 = 1 ∧
       ((f s).proxy_queue = [] →
          get_proxy fn s prev now = (.error .NoValidProxies, f s, 1))) := by
  refine ⟨?_, ?_, ?_⟩
  · unfold get_proxy
    split
    · cases fn with
      | none => simp
      | some f =>
        dsimp only
        split
        · simp
        · simp
    · simp
  · intro hq hfn
    subst hfn
    unfold get_proxy
    rw [get_proxy_once_empty s prev now hq]
    dsimp only
    rw [if_isIndexError_pos _ rfl]
  · intro f hfn hq
    subst hfn
    unfold get_proxy
    rw [get_proxy_once_empty s prev now hq]
    dsimp only
    rw [if_isIndexError_pos _ rfl]
    constructor
    · split <;> rfl
    · intro hq2
      rw [get_proxy_once_empty (f s) prev now hq2]
      dsimp only
      rw [if_isIndexError_pos _ rfl]

/-- C5 witness: empty pool, identity callback — one invocation, then failure. -/
theorem c5_witness :
    (mkPool [] 0 0 0).proxy_queue = [] ∧
    get_proxy (some (fun st => st)) (mkPool [] 0 0 0) none 0 =
      (.error .NoValidProxies, mkPool [] 0 0 0, 1) :=
  ⟨rfl, ((c5_empty_queue_replenish (some (fun st => st)) (mkPool [] 0 0 0) none 0).2.2
      (fun st => st) rfl rfl).2 rfl⟩

/-! ## Claim C6 -/

/-- C6: when the popped front endpoint is still cooling down (`now` strictly
before its `timeout`), `get_proxy` re-inserts it, fails with `ProxiesTimeout`
carrying that endpoint's `timeout`, performs no registry change (so no
counter increment and no release of `prev`), and leaves the set of queued
identifiers unchanged. -/
theorem c6_cooldown_front (fn : Option (PoolState → PoolState)) (s : PoolState)
    (prev : Option String) (now : Int) (id : String) (rest : List String) (p : ProxyData)
    (hq : s.proxy_queue = id :: rest) (hp : dictGet s.proxy_dict id = some p)
    (hurl : p.proxy_url = id) (ht : now < p.timeout)
    (hlk : ∀ a ∈ rest, (dictGet s.proxy_dict a).isSome) :
    ∃ q', get_proxy fn s prev now =
        (.error (.ProxiesTimeout p.timeout), { s with proxy_queue := q' }, 0) ∧
      (∀ x, x ∈ q' ↔ x ∈ s.proxy_queue) := by
  have hsub : ∀ a ∈ rest.erase p.proxy_url, (dictGet s.proxy_dict a).isSome :=
    fun a ha => hlk a (List.mem_of_mem_erase ha)
  have hput := queuePut_eq s.proxy_dict p rest hsub
  have htb : p.is_timeout now = true := by
    simp [ProxyData.is_timeout]
    omega
  have hone : get_proxy_once s prev now =
      (.error (.ProxiesTimeout p.timeout),
       { s with proxy_queue :=
           (rest.erase p.proxy_url).takeWhile (beforeNew s.proxy_dict p.timeout)
           ++ p.proxy_url :: (rest.erase p.proxy_url).dropWhile (beforeNew s.proxy_dict p.timeout) }) := by
    unfold get_proxy_once
    rw [hq]
    dsimp only
    rw [hp]
    dsimp only
    rw [if_pos htb, hput]
  have hni : isIndexError (get_proxy_once s prev now).1 = false := by
    rw [hone]
    rfl
  refine ⟨(rest.erase p.proxy_url).takeWhile (beforeNew s.proxy_dict p.timeout)
      ++ p.proxy_url :: (rest.erase p.proxy_url).dropWhile (beforeNew s.proxy_dict p.timeout),
      ?_, ?_⟩
  · unfold get_proxy
    rw [if_isIndexError_neg _ hni, hone]
  · intro x
    rw [hq, mem_insert_middle, hurl]
    constructor
    · rintro (rfl | hx)
      · exact List.mem_cons_self _ _
      · exact List.mem_cons_of_mem _ (List.mem_of_mem_erase hx)
    · intro hx
      rcases List.mem_cons.mp hx with rfl | hx2
      · exact Or.inl rfl
      · by_cases hxi : x = id
        · exact Or.inl hxi
        · exact Or.inr ((List.mem_erase_of_ne hxi).mpr hx2)

/-- Pool whose single endpoint is cooling down until time 5, witnessing C6. -/
def c6WitPool : PoolState :=
  { max_time_outs := 0, max_uses := 0, time_out_on_use := 0
    proxy_dict := [("a", ⟨"a", 5, false, 0, 0, 0⟩)], proxy_queue := ["a"] }

/-- C6 witness: acquiring at time 0 from the cooling pool. -/
theorem c6_witness :
    ∃ q', get_proxy none c6WitPool none 0 =
        (.error (.ProxiesTimeout (5 : Int)), { c6WitPool with proxy_queue := q' }, 0) ∧
      (∀ x, x ∈ q' ↔ x ∈ c6WitPool.proxy_queue) :=
  c6_cooldown_front none c6WitPool none 0 "a" [] ⟨"a", 5, false, 0, 0, 0⟩ rfl rfl rfl
    (by decide) (by decide)

/-! ## Claim C7 -/

/-- C7: for a known endpoint, `return_proxy` decrements `given_out_counter`
by exactly one and re-inserts the endpoint into the availability queue if and
only if the decremented record is valid-to-give with cooldown ignored — a
condition that does not mention `now` at all: not banned and under both
ceilings.  In particular a cooling-down but otherwise eligible endpoint is
re-queued and a banned endpoint never is. -/
theorem c7_release_requeue_iff_eligible (s : PoolState) (id : String) (now : Int) (p : ProxyData)
    (hp : dictGet s.proxy_dict id = some p) (hurl : p.proxy_url = id)
    (hlk : ∀ a ∈ s.proxy_queue, a ≠ id → (dictGet s.proxy_dict a).isSome) :
    dictGet (return_proxy s id now).2.proxy_dict id =
      some { p with given_out_counter := p.given_out_counter - 1 } ∧
    (proxy_valid_to_give s { p with given_out_counter := p.given_out_counter - 1 } now true =
      ((decide (s.max_time_outs ≤ 0) || decide (p.timed_out_counter < s.max_time_outs))
       && (decide (s.max_uses ≤ 0) || decide (p.used_counter < s.max_uses)) && !p.banned)) ∧
    (if proxy_valid_to_give s { p with given_out_counter := p.given_out_counter - 1 } now true then
       ∃ q', queuePut (dictSet s.proxy_dict id { p with given_out_counter := p.given_out_counter - 1 })
               { p with given_out_counter := p.given_out_counter - 1 } s.proxy_queue = .ok q' ∧
         return_proxy s id now =
           (.ok (), { s with
              proxy_dict := dictSet s.proxy_dict id
                { p with given_out_counter := p.given_out_counter - 1 },
              proxy_queue := q' }) ∧ id ∈ q'
     else
       return_proxy s id now =
         (.ok (), { s with
            proxy_dict := dictSet s.proxy_dict id
              { p with given_out_counter := p.given_out_counter - 1 } })) := by
  have hlk' : ∀ a ∈ s.proxy_queue.erase
      ({ p with given_out_counter := p.given_out_counter - 1 } : ProxyData).proxy_url,
      (dictGet (dictSet s.proxy_dict id { p with given_out_counter := p.given_out_counter - 1 }) a).isSome := by
    intro a ha
    by_cases hai : a = id
    · subst hai
      rw [dictGet_dictSet_self]
      rfl
    · rw [dictGet_dictSet_ne _ _ _ _ hai]
      exact hlk a (List.mem_of_mem_erase ha) hai
  refine ⟨?_, ?_, ?_⟩
  · unfold return_proxy
    rw [hp]
    dsimp only
    split
    · split
      · exact dictGet_dictSet_self _ _ _
      · exact dictGet_dictSet_self _ _ _
    · exact dictGet_dictSet_self _ _ _
  · simp [proxy_valid_to_give, ProxyData.is_valid]
  · by_cases hv : proxy_valid_to_give s
        { p with given_out_counter := p.given_out_counter - 1 } now true = true
    · rw [if_pos hv]
      have hput := queuePut_eq
        (dictSet s.proxy_dict id { p with given_out_counter := p.given_out_counter - 1 })
        { p with given_out_counter := p.given_out_counter - 1 } s.proxy_queue hlk'
      refine ⟨_, hput, ?_, ?_⟩
      · unfold return_proxy
        rw [hp]
        dsimp only
        rw [if_pos hv]
        rw [show queuePut (dictSet s.proxy_dict id
              { p with given_out_counter := p.given_out_counter - 1 })
              { p with given_out_counter := p.given_out_counter - 1 } s.proxy_queue = _ from hput]
      · rw [mem_insert_middle]
        exact Or.inl hurl.symm
    · rw [if_neg hv]
      unfold return_proxy
      rw [hp]
      dsimp only
      rw [if_neg hv]

/-- Pool with one checked-out endpoint, used to witness C7. -/
def c7WitPool : PoolState :=
  { max_time_outs := 0, max_uses := 0, time_out_on_use := 0
    proxy_dict := [("a", ⟨"a", 0, false, 1, 0, 0⟩)], proxy_queue := [] }

/-- C7 witness: releasing the eligible checked-out endpoint decrements its
counter to 0 and re-queues it. -/
theorem c7_witness :
    dictGet (return_proxy c7WitPool "a" 0).2.proxy_dict "a" = some ⟨"a", 0, false, 0, 0, 0⟩ ∧
    (∃ q', queuePut (dictSet c7WitPool.proxy_dict "a" ⟨"a", 0, false, 0, 0, 0⟩)
             ⟨"a", 0, false, 0, 0, 0⟩ c7WitPool.proxy_queue = .ok q' ∧
       return_proxy c7WitPool "a" 0 =
         (.ok (), { c7WitPool with
            proxy_dict := dictSet c7WitPool.proxy_dict "a" ⟨"a", 0, false, 0, 0, 0⟩,
            proxy_queue := q' }) ∧ "a" ∈ q') :=
  ⟨(c7_release_requeue_iff_eligible c7WitPool "a" 0 ⟨"a", 0, false, 1, 0, 0⟩ rfl rfl (by decide)).1,
   (c7_release_requeue_iff_eligible c7WitPool "a" 0 ⟨"a", 0, false, 1, 0, 0⟩ rfl rfl (by decide)).2.2⟩

/-! ## Claim C8 -/

/-- C8: removing an identifier absent from the registry fails, but with the
builtin `KeyError` coming from `dict.pop` — which bypasses
`_ProxyDict.__getitem__` and therefore never converts the miss into the
pool's `UnknownProxy` — evaluated here on the empty pool. -/
theorem c8_remove_unknown_keyerror :
    remove_proxy (mkPool [] 0 0 0) "x" = (.error (.KeyError "x"), mkPool [] 0 0 0) ∧
    (Except.error (PoolError.KeyError "x") : Except PoolError Unit) ≠
      .error (.UnknownProxy "x") :=
  ⟨rfl, by simp⟩

/-! ## Claim C9 -/

/-- C9 counterexample: `_ProxyQueue.remove` of an absent identifier raises
`ValueError` rather than being a silent no-op, and `remove_proxy` of a
registered but checked-out endpoint (its identifier not in the queue)
therefore raises as well. -/
theorem c9_counterexample :
    queueRemove [] "x" = .error .ValueError ∧
    (remove_proxy { mkPool ["a"] 0 0 0 with proxy_queue := [] } "a").1 = .error .ValueError :=
  ⟨rfl, rfl⟩

/-- C9 (amended): queue `remove` raises `ValueError` when the identifier is
absent; consequently `remove_proxy` of a registered, checked-out endpoint
raises `ValueError` with the registry entry already deleted. -/
theorem c9_queue_remove_raises (s : PoolState) (id : String)
    (hd : (dictGet s.proxy_dict id).isSome) (hq : id ∉ s.proxy_queue) :
    queueRemove s.proxy_queue id = .error .ValueError ∧
    remove_proxy s id =
      (.error .ValueError, { s with proxy_dict := s.proxy_dict.filter (fun kv => kv.1 ≠ id) }) := by
  have h1 : queueRemove s.proxy_queue id = .error .ValueError := by
    unfold queueRemove
    rw [if_neg hq]
  refine ⟨h1, ?_⟩
  unfold remove_proxy dictPop
  obtain ⟨v, hv⟩ := Option.isSome_iff_exists.mp hd
  rw [hv]
  dsimp only
  rw [h1]

/-- Pool that knows `"a"` but has it checked out, witnessing C9. -/
def c9WitPool : PoolState := { mkPool ["a"] 0 0 0 with proxy_queue := [] }

/-- C9 witness: removing the checked-out endpoint. -/
theorem c9_witness :
    queueRemove c9WitPool.proxy_queue "a" = .error .ValueError ∧
    remove_proxy c9WitPool "a" =
      (.error .ValueError,
       { c9WitPool with proxy_dict := c9WitPool.proxy_dict.filter (fun kv => kv.1 ≠ "a") }) :=
  c9_queue_remove_raises c9WitPool "a" (by decide) (by decide)

/-! ## Claim C10 -/

/-- C10: `add_proxy` stores a fresh record for the identifier — counters
zero, ban flag clear, no cooldown — overwriting any existing record, and
re-inserts the identifier into the availability queue; so a banned or
exhausted endpoint returns to circulation through `add_proxy`. -/
theorem c10_add_resets_and_requeues (s : PoolState) (id : String)
    (hlk : ∀ a ∈ s.proxy_queue, a ≠ id → (dictGet s.proxy_dict a).isSome) :
    ∃ q', add_proxy s id =
        (.ok (), { s with proxy_dict := dictSet s.proxy_dict id (ProxyData.fresh id),
                          proxy_queue := q' }) ∧
      id ∈ q' ∧
      dictGet (dictSet s.proxy_dict id (ProxyData.fresh id)) id = some (ProxyData.fresh id) ∧
      (ProxyData.fresh id).banned = false ∧ (ProxyData.fresh id).used_counter = 0 ∧
      (ProxyData.fresh id).timed_out_counter = 0 ∧ (ProxyData.fresh id).given_out_counter = 0 ∧
      (ProxyData.fresh id).timeout = 0 := by
  have h' : ∀ a ∈ s.proxy_queue.erase (ProxyData.fresh id).proxy_url,
      (dictGet (dictSet s.proxy_dict id (ProxyData.fresh id)) a).isSome := by
    intro a ha
    by_cases hai : a = id
    · subst hai
      rw [dictGet_dictSet_self]
      rfl
    · rw [dictGet_dictSet_ne _ _ _ _ hai]
      exact hlk a (List.mem_of_mem_erase ha) hai
  have hput := queuePut_eq (dictSet s.proxy_dict id (ProxyData.fresh id))
    (ProxyData.fresh id) s.proxy_queue h'
  refine ⟨(s.proxy_queue.erase (ProxyData.fresh id).proxy_url).takeWhile
        (beforeNew (dictSet s.proxy_dict id (ProxyData.fresh id)) (ProxyData.fresh id).timeout)
      ++ (ProxyData.fresh id).proxy_url ::
        (s.proxy_queue.erase (ProxyData.fresh id).proxy_url).dropWhile
          (beforeNew (dictSet s.proxy_dict id (ProxyData.fresh id)) (ProxyData.fresh id).timeout),
      ?_, ?_, dictGet_dictSet_self _ _ _, rfl, rfl, rfl, rfl, rfl⟩
  · unfold add_proxy
    dsimp only
    rw [hput]
  · rw [mem_insert_middle]
    exact Or.inl rfl

/-- C10 witness: adding `"a"` again after banning it yields a fresh, queued
record. -/
theorem c10_witness :
    ∃ q', add_proxy (ban_proxy (mkPool ["a"] 0 0 0) "a").2 "a" =
        (.ok (), { (ban_proxy (mkPool ["a"] 0 0 0) "a").2 with
           proxy_dict := dictSet (ban_proxy (mkPool ["a"] 0 0 0) "a").2.proxy_dict "a"
             (ProxyData.fresh "a"),
           proxy_queue := q' }) ∧
      "a" ∈ q' ∧
      dictGet (dictSet (ban_proxy (mkPool ["a"] 0 0 0) "a").2.proxy_dict "a"
        (ProxyData.fresh "a")) "a" = some (ProxyData.fresh "a") ∧
      (ProxyData.fresh "a").banned = false ∧ (ProxyData.fresh "a").used_counter = 0 ∧
      (ProxyData.fresh "a").timed_out_counter = 0 ∧ (ProxyData.fresh "a").given_out_counter = 0 ∧
      (ProxyData.fresh "a").timeout = 0 :=
  c10_add_resets_and_requeues (ban_proxy (mkPool ["a"] 0 0 0) "a").2 "a" (by decide)
